import Mathlib

/-!
Verification of the AQI-India dashboard's data core (`src/main.py`).

The dashboard loads a CSV of pollution readings, derives an AQI category for
every row, and computes aggregate views with pandas.  The embedding below
models the dataframe as a list of records, a missing numeric cell (NaN) as
`none`, and reproduces the pandas semantics the dashboard relies on:

* comparisons against NaN are `False` (so `aqi_category` falls through to the
  final `else` on a missing reading);
* `Series.max` / `Series.mean` skip missing values and yield NaN when no
  value is present;
* `groupby(key)` produces one group per distinct key, keys sorted ascending;
* `sort_values` stably sorts the non-missing entries ascending; for
  `ascending=False` pandas (`nargsort`) reverses the non-missing block
  before the stable argsort and reverses the result again, so the
  descending sort is stable as well; missing entries are appended last in
  their original order (`na_position="last"`);
* `value_counts` counts distinct values and orders the pairs descending by
  count.

Rational numbers stand in for the floating-point readings: every comparison
and mean in the claims is order-theoretic and exact on the inputs involved.
-/

/-- One row of the source CSV `AQI.csv`.  A missing numeric cell is `none`;
`last_update` is kept as the raw text it is parsed from. -/
structure RawRow where
  station : String
  city : String
  state : String
  pollutant_id : String
  pollutant_min : Option ℚ
  pollutant_max : Option ℚ
  pollutant_avg : Option ℚ
  last_update : String
  deriving DecidableEq, Repr

/-- A loaded dataframe row: the CSV fields plus the derived `AQI_Category`
column added by `load_data`. -/
structure Record where
  station : String
  city : String
  state : String
  pollutant_id : String
  pollutant_min : Option ℚ
  pollutant_max : Option ℚ
  pollutant_avg : Option ℚ
  last_update : String
  AQI_Category : String
  deriving DecidableEq, Repr

/-- Python's `value <= c` where `value` may be NaN: any comparison against a
missing value is `False`. -/
def pyLE (value : Option ℚ) (c : ℚ) : Bool :=
  match value with
  | some x => decide (x ≤ c)
  | none => false

/-- The `aqi_category` if/elif chain of `load_data` in `src/main.py`. -/
def aqi_category (value : Option ℚ) : String :=
  if pyLE value 50 then "🟢 Good"
  else if pyLE value 100 then "🟡 Moderate"
  else if pyLE value 150 then "🟠 Unhealthy (Sensitive)"
  else if pyLE value 200 then "🔴 Unhealthy"
  else "☠️ Hazardous"

/-- The five category labels `aqi_category` can produce. -/
def categoryLabels : List String :=
  ["🟢 Good", "🟡 Moderate", "🟠 Unhealthy (Sensitive)", "🔴 Unhealthy", "☠️ Hazardous"]

/-- One row of `df["AQI_Category"] = df["pollutant_avg"].apply(aqi_category)`. -/
def toRecord (row : RawRow) : Record :=
  { station := row.station, city := row.city, state := row.state,
    pollutant_id := row.pollutant_id, pollutant_min := row.pollutant_min,
    pollutant_max := row.pollutant_max, pollutant_avg := row.pollutant_avg,
    last_update := row.last_update,
    AQI_Category := aqi_category row.pollutant_avg }

/-- The `load_data` function of `src/main.py`: read the rows and add the derived
`AQI_Category` column.  The source is modelled as the parsed row list, so the
function is a pure map over it. -/
def load_data (rows : List RawRow) : List Record :=
  rows.map toRecord

/-- Embedding of `df["AQI_Category"].value_counts()`: one `(value, count)` pair per
distinct category, ordered descending by count (pandas sorts descending by
reversing a stable ascending sort). -/
def category_counts (ds : List Record) : List (String × Nat) :=
  let cats := ds.map (fun r => r.AQI_Category)
  ((cats.dedup.map (fun c => (c, cats.count c))).mergeSort
      (fun p q => decide (p.2 ≤ q.2))).reverse

/-- Sum of the counts in a `value_counts` result. -/
def countsSum (counts : List (String × Nat)) : Nat :=
  (counts.map (fun p => p.2)).sum

/-- Embedding of `Series.max`: maximum of the non-missing values, NaN (here `none`) when
there is none. -/
def seriesMax (xs : List (Option ℚ)) : Option ℚ :=
  (xs.filterMap id).max?

/-- The alert banner condition of `src/main.py`:
`df["pollutant_avg"].max() > 200` (a NaN maximum compares `False`). -/
def alertThresholdExceeded (ds : List Record) : Bool :=
  match seriesMax (ds.map (fun r => r.pollutant_avg)) with
  | some m => decide (200 < m)
  | none => false

/-- Embedding of `Series.mean`: mean of the non-missing values, NaN (here `none`) when
there is none. -/
def seriesMean (xs : List (Option ℚ)) : Option ℚ :=
  let vs := xs.filterMap id
  if vs = [] then none else some (vs.sum / (vs.length : ℚ))

/-- The `groupby(key)` group labels: the distinct key values in ascending
order. -/
def groupKeys (keys : List String) : List String :=
  keys.dedup.mergeSort (fun a b => decide (a ≤ b))

/-- Embedding of `df.groupby(key)["pollutant_avg"].mean()`: one `(key, mean)` pair per
distinct key value, keys ascending. -/
def groupMeans (key : Record → String) (ds : List Record) : List (String × Option ℚ) :=
  (groupKeys (ds.map key)).map (fun k =>
    (k, seriesMean ((ds.filter (fun r => decide (key r = k))).map
      (fun r => r.pollutant_avg))))

/-- Comparison used by `sort_values` on a keyed series: order by the value
component (the key is ignored; a `getD` default only ever meets a present
value where this comparison matters). -/
def optLE (p q : String × Option ℚ) : Bool :=
  decide (p.2.getD 0 ≤ q.2.getD 0)

/-- Embedding of `Series.sort_values()` (ascending): stable sort of the non-missing
entries by value, missing entries appended last in original order. -/
def sortValuesAsc (entries : List (String × Option ℚ)) : List (String × Option ℚ) :=
  (entries.filter (fun p => p.2.isSome)).mergeSort optLE ++
    entries.filter (fun p => !p.2.isSome)

/-- Embedding of `Series.sort_values(ascending=False)`: pandas (`nargsort`)
reverses the non-missing entries, stable-sorts them ascending, reverses the
result again, and appends the missing ones, so the descending sort is stable
(tied entries keep their original relative order). -/
def sortValuesDesc (entries : List (String × Option ℚ)) : List (String × Option ℚ) :=
  ((entries.filter (fun p => p.2.isSome)).reverse.mergeSort optLE).reverse ++
    entries.filter (fun p => !p.2.isSome)

/-- The `state_avg` table of `src/main.py`:
`df.groupby('state')['pollutant_avg'].mean().sort_values(ascending=False)`. -/
def state_avg (ds : List Record) : List (String × Option ℚ) :=
  sortValuesDesc (groupMeans (fun r => r.state) ds)

/-- The `cleanest_cities` table of `src/main.py`, with the dashboard's literal `5`
generalised to a parameter:
`df.groupby("city")["pollutant_avg"].mean().sort_values().head(n)`. -/
def cleanest_cities (ds : List Record) (n : Nat) : List (String × Option ℚ) :=
  (sortValuesAsc (groupMeans (fun r => r.city) ds)).take n

/-- The two fields the sidebar filter can select on. -/
inductive FilterField where
  | state
  | city
  deriving DecidableEq, Repr

/-- The dataframe column a `FilterField` reads. -/
def fieldOf (f : FilterField) (r : Record) : String :=
  match f with
  | .state => r.state
  | .city => r.city

/-- The Visual-Overview filter of `src/main.py`: `filtered_df = df.copy()`
and, only when the multiselect is non-empty,
`filtered_df = df[df[field].isin(selected)]`. -/
def filterBy (ds : List Record) (f : FilterField) (selected : List String) : List Record :=
  if selected.isEmpty then ds
  else ds.filter (fun r => decide (fieldOf f r ∈ selected))

/-- The ordering of `stateAverages`: whenever a later entry has a mean,
every earlier entry has a mean at least as large, equal means tied by
ascending state name, all-missing states last. -/
def meanDescAscTies (p q : String × Option ℚ) : Prop :=
  ∀ a, q.2 = some a → ∃ b, p.2 = some b ∧ (a < b ∨ (a = b ∧ p.1 < q.1))

/-- Nondecreasing-by-mean ordering with missing means last: whenever a later
entry has a mean, every earlier entry has one that is no larger. -/
def meanAsc (p q : String × Option ℚ) : Prop :=
  ∀ b, q.2 = some b → ∃ a, p.2 = some a ∧ a ≤ b

/-- Concrete row used in witnesses and concrete checks: state `StateA`,
reading 10. -/
def rowA : RawRow :=
  { station := "S1", city := "CityA", state := "StateA", pollutant_id := "PM10",
    pollutant_min := some 5, pollutant_max := some 15, pollutant_avg := some 10,
    last_update := "01-01-2025 01:00:00" }

/-- Concrete row used in concrete checks: state `StateB`, reading 10. -/
def rowB : RawRow :=
  { station := "S2", city := "CityB", state := "StateB", pollutant_id := "PM10",
    pollutant_min := some 5, pollutant_max := some 15, pollutant_avg := some 10,
    last_update := "01-01-2025 01:00:00" }

/-- Concrete row with a missing `pollutant_avg` reading. -/
def missingRow : RawRow :=
  { station := "S3", city := "CityC", state := "StateC", pollutant_id := "PM25",
    pollutant_min := none, pollutant_max := none, pollutant_avg := none,
    last_update := "01-01-2025 01:00:00" }

/-- The record `load_data` derives from `missingRow`. -/
def missingRec : Record :=
  { station := "S3", city := "CityC", state := "StateC", pollutant_id := "PM25",
    pollutant_min := none, pollutant_max := none, pollutant_avg := none,
    last_update := "01-01-2025 01:00:00", AQI_Category := "☠️ Hazardous" }

/-! ## Helper lemmas about the classifier -/

theorem aqi_category_none : aqi_category none = "☠️ Hazardous" := rfl

theorem aqi_category_mem (value : Option ℚ) : aqi_category value ∈ categoryLabels := by
  unfold aqi_category categoryLabels
  split_ifs <;> simp

theorem aqi_category_good {v : ℚ} (h : v ≤ 50) : aqi_category (some v) = "🟢 Good" := by
  unfold aqi_category pyLE
  simp [h]

theorem aqi_category_moderate {v : ℚ} (h1 : 50 < v) (h2 : v ≤ 100) :
    aqi_category (some v) = "🟡 Moderate" := by
  unfold aqi_category pyLE
  simp [not_le.mpr h1, h2]

theorem aqi_category_sensitive {v : ℚ} (h1 : 100 < v) (h2 : v ≤ 150) :
    aqi_category (some v) = "🟠 Unhealthy (Sensitive)" := by
  unfold aqi_category pyLE
  have g50 : (50 : ℚ) < v := lt_of_le_of_lt (by norm_num) h1
  simp [not_le.mpr h1, not_le.mpr g50, h2]

theorem aqi_category_unhealthy {v : ℚ} (h1 : 150 < v) (h2 : v ≤ 200) :
    aqi_category (some v) = "🔴 Unhealthy" := by
  unfold aqi_category pyLE
  have g100 : (100 : ℚ) < v := lt_of_le_of_lt (by norm_num) h1
  have g50 : (50 : ℚ) < v := lt_of_le_of_lt (by norm_num) h1
  simp [not_le.mpr h1, not_le.mpr g100, not_le.mpr g50, h2]

theorem aqi_category_hazardous {v : ℚ} (h : 200 < v) :
    aqi_category (some v) = "☠️ Hazardous" := by
  unfold aqi_category pyLE
  have g150 : (150 : ℚ) < v := lt_of_le_of_lt (by norm_num) h
  have g100 : (100 : ℚ) < v := lt_of_le_of_lt (by norm_num) h
  have g50 : (50 : ℚ) < v := lt_of_le_of_lt (by norm_num) h
  simp [not_le.mpr h, not_le.mpr g150, not_le.mpr g100, not_le.mpr g50]

/-! ## Claim theorems: classifier, filtering, loading -/

/-- C1: for every pollutant_avg value `v`, `aqi_category` returns exactly one
of the five fixed labels, following the thresholds `v ≤ 50 → Good`,
`50 < v ≤ 100 → Moderate`, `100 < v ≤ 150 → Unhealthy (Sensitive)`,
`150 < v ≤ 200 → Unhealthy`, `200 < v → Hazardous`; the boundary values 50,
100, 150 and 200 each map to the less-severe side. -/
theorem C1_classify_thresholds (v : ℚ) :
    aqi_category (some v) ∈ categoryLabels ∧
    (aqi_category (some v) = "🟢 Good" ↔ v ≤ 50) ∧
    (aqi_category (some v) = "🟡 Moderate" ↔ 50 < v ∧ v ≤ 100) ∧
    (aqi_category (some v) = "🟠 Unhealthy (Sensitive)" ↔ 100 < v ∧ v ≤ 150) ∧
    (aqi_category (some v) = "🔴 Unhealthy" ↔ 150 < v ∧ v ≤ 200) ∧
    (aqi_category (some v) = "☠️ Hazardous" ↔ 200 < v) ∧
    aqi_category (some 50) = "🟢 Good" ∧
    aqi_category (some 100) = "🟡 Moderate" ∧
    aqi_category (some 150) = "🟠 Unhealthy (Sensitive)" ∧
    aqi_category (some 200) = "🔴 Unhealthy" := by
  have main : (aqi_category (some v) = "🟢 Good" ↔ v ≤ 50) ∧
      (aqi_category (some v) = "🟡 Moderate" ↔ 50 < v ∧ v ≤ 100) ∧
      (aqi_category (some v) = "🟠 Unhealthy (Sensitive)" ↔ 100 < v ∧ v ≤ 150) ∧
      (aqi_category (some v) = "🔴 Unhealthy" ↔ 150 < v ∧ v ≤ 200) ∧
      (aqi_category (some v) = "☠️ Hazardous" ↔ 200 < v) := by
    rcases le_or_lt v 50 with h50 | h50
    · rw [aqi_category_good h50]
      exact ⟨iff_of_true rfl h50,
        iff_of_false (by decide) (fun hx => by linarith [hx.1]),
        iff_of_false (by decide) (fun hx => by linarith [hx.1]),
        iff_of_false (by decide) (fun hx => by linarith [hx.1]),
        iff_of_false (by decide) (fun hx => by linarith)⟩
    · rcases le_or_lt v 100 with h100 | h100
      · rw [aqi_category_moderate h50 h100]
        exact ⟨iff_of_false (by decide) (fun hx => by linarith),
          iff_of_true rfl ⟨h50, h100⟩,
          iff_of_false (by decide) (fun hx => by linarith [hx.1]),
          iff_of_false (by decide) (fun hx => by linarith [hx.1]),
          iff_of_false (by decide) (fun hx => by linarith)⟩
      · rcases le_or_lt v 150 with h150 | h150
        · rw [aqi_category_sensitive h100 h150]
          exact ⟨iff_of_false (by decide) (fun hx => by linarith),
            iff_of_false (by decide) (fun hx => by linarith [hx.2]),
            iff_of_true rfl ⟨h100, h150⟩,
            iff_of_false (by decide) (fun hx => by linarith [hx.1]),
            iff_of_false (by decide) (fun hx => by linarith)⟩
        · rcases le_or_lt v 200 with h200 | h200
          · rw [aqi_category_unhealthy h150 h200]
            exact ⟨iff_of_false (by decide) (fun hx => by linarith),
              iff_of_false (by decide) (fun hx => by linarith [hx.2]),
              iff_of_false (by decide) (fun hx => by linarith [hx.2]),
              iff_of_true rfl ⟨h150, h200⟩,
              iff_of_false (by decide) (fun hx => by linarith)⟩
          · rw [aqi_category_hazardous h200]
            exact ⟨iff_of_false (by decide) (fun hx => by linarith),
              iff_of_false (by decide) (fun hx => by linarith [hx.2]),
              iff_of_false (by decide) (fun hx => by linarith [hx.2]),
              iff_of_false (by decide) (fun hx => by linarith [hx.2]),
              iff_of_true rfl h200⟩
  exact ⟨aqi_category_mem _, main.1, main.2.1, main.2.2.1, main.2.2.2.1, main.2.2.2.2,
    aqi_category_good le_rfl,
    aqi_category_moderate (by norm_num) le_rfl,
    aqi_category_sensitive (by norm_num) le_rfl,
    aqi_category_unhealthy (by norm_num) le_rfl⟩

/-- C6: filtering with an empty selection returns the full dataset
unchanged, for both filterable fields. -/
theorem C6_empty_selection_identity (ds : List Record) (f : FilterField) :
    filterBy ds f [] = ds := rfl

/-- C7: a non-empty selection none of whose values occurs in the chosen field
yields an empty view (the total function returns the empty list; no error is
possible). -/
theorem C7_no_match_empty_view (ds : List Record) (f : FilterField)
    (selected : List String) (hne : selected ≠ [])
    (hmiss : ∀ r ∈ ds, fieldOf f r ∉ selected) :
    filterBy ds f selected = [] := by
  unfold filterBy
  rw [if_neg (by simpa using hne)]
  exact List.filter_eq_nil_iff.mpr (fun r hr => by simpa using hmiss r hr)

/-- Witness for C7 at a concrete dataset and the spec's own example
selection `{"NoSuchState"}`. -/
theorem C7_witness : filterBy (load_data [rowA]) FilterField.state ["NoSuchState"] = [] :=
  C7_no_match_empty_view _ _ _ (by decide) (by decide)

/-- C9: `load_data` is a pure function of the parsed source rows, so two
loads of one fixed source are structurally identical — the same records with
the same derived categories in the same order. -/
theorem C9_load_idempotent (rows : List RawRow) :
    load_data rows = load_data rows ∧
    (load_data rows).map (fun r => r.AQI_Category) =
      (load_data rows).map (fun r => r.AQI_Category) :=
  ⟨rfl, rfl⟩

/-- C10: every loaded record carries one of the five category labels, and a
record whose `pollutant_avg` is missing is bucketed as Hazardous — every
threshold comparison against a missing value is false, so the classifier
falls through to the final `else`. -/
theorem C10_missing_is_hazardous (rows : List RawRow) (r : Record)
    (hr : r ∈ load_data rows) (hmiss : r.pollutant_avg = none) :
    r.AQI_Category = "☠️ Hazardous" ∧ r.AQI_Category ∈ categoryLabels := by
  rcases List.mem_map.mp hr with ⟨row, _, rfl⟩
  have hrow : row.pollutant_avg = none := hmiss
  constructor
  · show aqi_category row.pollutant_avg = _
    rw [hrow, aqi_category_none]
  · exact aqi_category_mem _

/-- Witness for C10 at a concrete source containing a row with a missing
reading. -/
theorem C10_witness : missingRec.AQI_Category = "☠️ Hazardous" ∧
    missingRec.AQI_Category ∈ categoryLabels :=
  C10_missing_is_hazardous [missingRow] missingRec (by decide) rfl

/-! ## Helper lemmas for the aggregations -/

theorem mergeSort_nil_eq {α : Type} (le : α → α → Bool) :
    List.mergeSort [] le = [] :=
  List.mergeSort_of_sorted (by simp)

theorem mergeSort_single_eq {α : Type} (le : α → α → Bool) (a : α) :
    List.mergeSort [a] le = [a] :=
  List.mergeSort_of_sorted (by simp)

theorem mergeSort_pair_of_le {α : Type} {le : α → α → Bool} {a b : α}
    (h : le a b = true) : List.mergeSort [a, b] le = [a, b] :=
  List.mergeSort_of_sorted (by simp [h])

/-- Reversing and merge-sorting a list of pairs leaves the sum of the second
components unchanged (both are permutations). -/
theorem sum_snd_reverse_mergeSort {α : Type} (le : α × Nat → α × Nat → Bool)
    (l : List (α × Nat)) :
    (((l.mergeSort le).reverse).map (fun p => p.2)).sum =
      (l.map (fun p => p.2)).sum :=
  List.Perm.sum_eq (List.Perm.map _ ((List.reverse_perm _).trans (List.mergeSort_perm _ _)))

/-- The counts of `value_counts` always sum to the number of rows counted:
every record contributes to exactly one bucket. -/
theorem countsSum_category_counts (ds : List Record) :
    countsSum (category_counts ds) = ds.length := by
  unfold countsSum category_counts
  dsimp only
  rw [sum_snd_reverse_mergeSort, List.map_map]
  have hcomp : ((fun p : String × Nat => p.2) ∘
      (fun c => (c, (ds.map (fun r => r.AQI_Category)).count c))) =
      fun c => (ds.map (fun r => r.AQI_Category)).count c := rfl
  rw [hcomp, List.sum_map_count_dedup_eq_length, List.length_map]

/-! ## Claim theorems: alert, distribution sums, empty dataset -/

/-- C3: the alert fires exactly when the maximum present `pollutant_avg`
exceeds 200, equivalently exactly when some record's reading exceeds 200;
with no reading present the NaN maximum compares false and no alert is
raised. -/
theorem C3_alert_iff_max_gt_200 (ds : List Record) :
    (alertThresholdExceeded ds = true ↔
      ∃ m, seriesMax (ds.map (fun r => r.pollutant_avg)) = some m ∧ 200 < m) ∧
    (alertThresholdExceeded ds = true ↔
      ∃ r ∈ ds, ∃ v, r.pollutant_avg = some v ∧ 200 < v) := by
  have hfm : (ds.map (fun r => r.pollutant_avg)).filterMap id =
      ds.filterMap (fun r => r.pollutant_avg) := by
    rw [List.filterMap_map]
    rfl
  have hiff1 : alertThresholdExceeded ds = true ↔
      ∃ m, seriesMax (ds.map (fun r => r.pollutant_avg)) = some m ∧ 200 < m := by
    unfold alertThresholdExceeded
    cases h : seriesMax (ds.map (fun r => r.pollutant_avg)) with
    | none => simp
    | some m => simp
  refine ⟨hiff1, hiff1.trans ?_⟩
  constructor
  · rintro ⟨m, hm, h200⟩
    unfold seriesMax at hm
    have hmem : m ∈ (ds.map (fun r => r.pollutant_avg)).filterMap id :=
      List.max?_mem (fun a b => max_choice a b) hm
    rw [hfm] at hmem
    rcases List.mem_filterMap.mp hmem with ⟨r, hr, hrv⟩
    exact ⟨r, hr, m, hrv, h200⟩
  · rintro ⟨r, hr, v, hv, h200⟩
    have hvmem : v ∈ (ds.map (fun r => r.pollutant_avg)).filterMap id := by
      rw [hfm]
      exact List.mem_filterMap.mpr ⟨r, hr, hv⟩
    unfold seriesMax
    cases h : ((ds.map (fun r => r.pollutant_avg)).filterMap id).max? with
    | none =>
      rw [List.max?_eq_none_iff] at h
      rw [h] at hvmem
      simp at hvmem
    | some m =>
      have hall : ∀ b ∈ (ds.map (fun r => r.pollutant_avg)).filterMap id, b ≤ m :=
        (List.max?_le_iff (fun a b c => max_le_iff) h).mp le_rfl
      exact ⟨m, rfl, lt_of_lt_of_le h200 (hall v hvmem)⟩

/-- C2 counterexample: on a source whose single row has a missing
`pollutant_avg`, the `value_counts` buckets sum to 1 while the number of
categorizable records is 0 — the missing record is NOT excluded from the
five buckets. -/
theorem C2_counterexample :
    countsSum (category_counts (load_data [missingRow])) = 1 ∧
    ((load_data [missingRow]).filter (fun r => r.pollutant_avg.isSome)).length = 0 ∧
    countsSum (category_counts (load_data [missingRow])) ≠
      ((load_data [missingRow]).filter (fun r => r.pollutant_avg.isSome)).length := by
  have h1 : countsSum (category_counts (load_data [missingRow])) = 1 :=
    countsSum_category_counts _
  have h2 : ((load_data [missingRow]).filter
      (fun r => r.pollutant_avg.isSome)).length = 0 := rfl
  exact ⟨h1, h2, by rw [h1, h2]; decide⟩

/-- C2 as amended: the counts returned by `category_counts` sum to the TOTAL
number of records — a record with a missing `pollutant_avg` is not excluded
but bucketed (as Hazardous, see `C10_missing_is_hazardous`). -/
theorem C2_amended_counts_sum_all_records (rows : List RawRow) :
    countsSum (category_counts (load_data rows)) = (load_data rows).length ∧
    (load_data rows).length = rows.length :=
  ⟨countsSum_category_counts _, by simp [load_data]⟩

/-- C8: on the empty dataset every aggregate is empty or neutral — no alert,
empty distribution, empty rankings — and, the functions being total, no
error is possible. -/
theorem C8_empty_dataset_neutral :
    alertThresholdExceeded [] = false ∧
    category_counts [] = [] ∧
    state_avg [] = [] ∧
    cleanest_cities [] 5 = [] := by
  refine ⟨rfl, ?_, ?_, ?_⟩
  · simp [category_counts, mergeSort_nil_eq]
  · simp [state_avg, sortValuesDesc, groupMeans, groupKeys, mergeSort_nil_eq]
  · simp [cleanest_cities, sortValuesAsc, groupMeans, groupKeys, mergeSort_nil_eq]

/-! ## Sorting machinery: stability of `sort_values` -/

theorem optLE_trans : ∀ (p q r : String × Option ℚ),
    optLE p q = true → optLE q r = true → optLE p r = true := by
  intro p q r hpq hqr
  simp only [optLE, decide_eq_true_eq] at *
  exact le_trans hpq hqr

theorem optLE_total : ∀ (p q : String × Option ℚ),
    (optLE p q || optLE q p) = true := by
  intro p q
  simp only [optLE, Bool.or_eq_true, decide_eq_true_eq]
  exact le_total _ _

/-- Two distinct members of a list occur in one of the two orders. -/
theorem sublist_pair_of_mem {α : Type} {l : List α} {a b : α}
    (ha : a ∈ l) (hb : b ∈ l) (hne : a ≠ b) :
    List.Sublist [a, b] l ∨ List.Sublist [b, a] l := by
  induction l with
  | nil => simp at ha
  | cons x xs ih =>
    rcases List.mem_cons.mp ha with rfl | ha'
    · rcases List.mem_cons.mp hb with rfl | hb'
      · exact absurd rfl hne
      · exact Or.inl (List.Sublist.cons₂ a (List.singleton_sublist.mpr hb'))
    · rcases List.mem_cons.mp hb with rfl | hb'
      · exact Or.inr (List.Sublist.cons₂ b (List.singleton_sublist.mpr ha'))
      · rcases ih ha' hb' with h | h
        · exact Or.inl (List.Sublist.cons x h)
        · exact Or.inr (List.Sublist.cons x h)

/-- In a duplicate-free list, two elements cannot occur in both orders. -/
theorem eq_of_pair_sublist_both {α : Type} : ∀ {l : List α} {a b : α},
    l.Nodup → List.Sublist [a, b] l → List.Sublist [b, a] l → a = b
  | [], a, b, _, h1, _ => by simp at h1
  | x :: xs, a, b, hnd, h1, h2 => by
    have hx : x ∉ xs := (List.nodup_cons.mp hnd).1
    have hnd' : xs.Nodup := (List.nodup_cons.mp hnd).2
    cases h1 with
    | cons _ h1' =>
      cases h2 with
      | cons _ h2' => exact eq_of_pair_sublist_both hnd' h1' h2'
      | cons₂ _ h2' =>
        exact absurd (h1'.subset (by simp)) hx
    | cons₂ _ h1' =>
      cases h2 with
      | cons _ h2' =>
        exact absurd (h2'.subset (by simp)) hx
      | cons₂ _ h2' => rfl

/-- Stability of the stable ascending value sort, generic in the key order:
if the input entries have pairwise `s`-related keys for an asymmetric `s`,
the sorted output is pairwise ordered by value and equal values keep their
original (`s`-related) key order. -/
theorem mergeSort_stable_pairwise_lex {l : List (String × Option ℚ)}
    {s : String → String → Prop}
    (hasym : ∀ x y : String, s x y → s y x → False)
    (hpl : l.Pairwise (fun p q => s p.1 q.1)) :
    (l.mergeSort optLE).Pairwise
      (fun p q => ∀ a b, p.2 = some a → q.2 = some b →
        (a < b ∨ (a = b ∧ s p.1 q.1))) := by
  have hlnodup : l.Nodup := by
    refine hpl.imp ?_
    intro p q hs heq
    rw [heq] at hs
    exact absurd hs (fun hs2 => hasym _ _ hs2 hs2)
  have hmapnodup : (l.map Prod.fst).Nodup := by
    refine List.pairwise_map.mpr ?_
    refine hpl.imp ?_
    intro p q hs heq
    rw [heq] at hs
    exact hasym _ _ hs hs
  have hsnodup : (l.mergeSort optLE).Nodup :=
    (List.mergeSort_perm _ optLE).nodup_iff.mpr hlnodup
  have hsorted : (l.mergeSort optLE).Pairwise
      (fun p q => optLE p q = true) :=
    List.sorted_mergeSort optLE_trans optLE_total _
  rw [List.pairwise_iff_forall_sublist]
  intro p q hsub
  intro a b hpa hqb
  have hople : optLE p q = true := List.pairwise_iff_forall_sublist.mp hsorted hsub
  have hle : a ≤ b := by
    simp only [optLE, hpa, hqb, Option.getD_some, decide_eq_true_eq] at hople
    exact hople
  rcases lt_or_eq_of_le hle with hlt | heq
  · exact Or.inl hlt
  · right
    refine ⟨heq, ?_⟩
    have hpmem : p ∈ l := List.mem_mergeSort.mp (hsub.subset (by simp))
    have hqmem : q ∈ l := List.mem_mergeSort.mp (hsub.subset (by simp))
    have hpq : p ≠ q := List.pairwise_iff_forall_sublist.mp hsnodup hsub
    by_contra hns
    have hne' : q ≠ p := fun he => hpq he.symm
    rcases sublist_pair_of_mem hqmem hpmem hne' with hqp | hpq2
    · have hqple : optLE q p = true := by
        simp only [optLE, hpa, hqb, Option.getD_some, decide_eq_true_eq]
        exact le_of_eq heq.symm
      have hsub2 : List.Sublist [q, p] (l.mergeSort optLE) :=
        List.pair_sublist_mergeSort optLE_trans optLE_total hqple hqp
      exact hne' (eq_of_pair_sublist_both hsnodup hsub2 hsub)
    · exact hns (List.pairwise_iff_forall_sublist.mp hpl hpq2)

/-- The ascending sort of a strictly-key-ascending entry list is pairwise
nondecreasing by value with missing values last; equal values keep the
ascending key order. -/
theorem sortValuesAsc_pairwise {entries : List (String × Option ℚ)}
    (h : entries.Pairwise (fun p q => p.1 < q.1)) :
    (sortValuesAsc entries).Pairwise
      (fun p q => ∀ b, q.2 = some b →
        ∃ a, p.2 = some a ∧ (a < b ∨ (a = b ∧ p.1 < q.1))) := by
  unfold sortValuesAsc
  rw [List.pairwise_append]
  refine ⟨?_, ?_, ?_⟩
  · have hasym : ∀ x y : String, x < y → y < x → False :=
      fun _ _ h1 h2 => absurd h2 (lt_asymm h1)
    refine (mergeSort_stable_pairwise_lex hasym (h.filter _)).imp_of_mem ?_
    intro p q hp hq hlex b hqb
    have hps : p.2.isSome := by
      simpa using List.of_mem_filter (List.mem_mergeSort.mp hp)
    rcases Option.isSome_iff_exists.mp hps with ⟨a, hpa⟩
    exact ⟨a, hpa, hlex a b hpa hqb⟩
  · rw [List.pairwise_iff_forall_sublist]
    intro p q hsub b hqb
    have hq : q ∈ entries.filter (fun p => !p.2.isSome) := hsub.subset (by simp)
    have hqn := List.of_mem_filter hq
    rw [hqb] at hqn
    simp at hqn
  · intro p hp q hq b hqb
    have hqn := List.of_mem_filter hq
    rw [hqb] at hqn
    simp at hqn

/-- The descending sort of a strictly-key-ascending entry list is pairwise
nonincreasing by value with missing values last, and equal values stay in
ascending key order: the double reversal around the stable ascending sort
makes the descending sort stable. -/
theorem sortValuesDesc_pairwise {entries : List (String × Option ℚ)}
    (h : entries.Pairwise (fun p q => p.1 < q.1)) :
    (sortValuesDesc entries).Pairwise meanDescAscTies := by
  unfold sortValuesDesc
  rw [List.pairwise_append]
  refine ⟨?_, ?_, ?_⟩
  · rw [List.pairwise_reverse]
    have hasym : ∀ x y : String, y < x → x < y → False :=
      fun _ _ h1 h2 => absurd h2 (lt_asymm h1)
    have hrev : ((entries.filter (fun p => p.2.isSome)).reverse).Pairwise
        (fun p q => q.1 < p.1) :=
      List.pairwise_reverse.mpr (h.filter _)
    refine (mergeSort_stable_pairwise_lex hasym hrev).imp_of_mem ?_
    intro p q hp hq hlex
    intro a hpa
    have hqs : q.2.isSome := by
      have hq2 := List.mem_mergeSort.mp hq
      rw [List.mem_reverse] at hq2
      simpa using List.of_mem_filter hq2
    rcases Option.isSome_iff_exists.mp hqs with ⟨b, hqb⟩
    exact ⟨b, hqb, hlex a b hpa hqb⟩
  · rw [List.pairwise_iff_forall_sublist]
    intro p q hsub a hqa
    have hq : q ∈ entries.filter (fun p => !p.2.isSome) := hsub.subset (by simp)
    have hqn := List.of_mem_filter hq
    rw [hqa] at hqn
    simp at hqn
  · intro p hp q hq a hqa
    have hqn := List.of_mem_filter hq
    rw [hqa] at hqn
    simp at hqn

/-- The ascending sort permutes its input. -/
theorem sortValuesAsc_perm (entries : List (String × Option ℚ)) :
    List.Perm (sortValuesAsc entries) entries := by
  unfold sortValuesAsc
  refine ((List.mergeSort_perm _ _).append_right _).trans ?_
  exact List.filter_append_perm _ entries

/-- The descending sort permutes its input. -/
theorem sortValuesDesc_perm (entries : List (String × Option ℚ)) :
    List.Perm (sortValuesDesc entries) entries := by
  unfold sortValuesDesc
  refine ((List.reverse_perm _).append_right _).trans ?_
  refine ((List.mergeSort_perm _ _).append_right _).trans ?_
  refine ((List.reverse_perm _).append_right _).trans ?_
  exact List.filter_append_perm _ entries

theorem groupKeys_nodup (keys : List String) : (groupKeys keys).Nodup :=
  (List.mergeSort_perm _ _).nodup_iff.mpr keys.nodup_dedup

theorem groupKeys_sorted_lt (keys : List String) :
    (groupKeys keys).Pairwise (fun a b => a < b) := by
  have hle : (groupKeys keys).Pairwise (fun a b => decide (a ≤ b) = true) :=
    List.sorted_mergeSort
      (by
        intro a b c h1 h2
        simp only [decide_eq_true_eq] at *
        exact le_trans h1 h2)
      (by
        intro a b
        simp only [Bool.or_eq_true, decide_eq_true_eq]
        exact le_total a b) _
  have hnd := groupKeys_nodup keys
  rw [List.pairwise_iff_forall_sublist]
  intro a b hsub
  exact lt_of_le_of_ne (by simpa using List.pairwise_iff_forall_sublist.mp hle hsub)
    (List.pairwise_iff_forall_sublist.mp hnd hsub)

/-- Group means inherit the strictly ascending key order of `groupKeys`. -/
theorem groupMeans_pairwise_lt (key : Record → String) (ds : List Record) :
    (groupMeans key ds).Pairwise (fun p q => p.1 < q.1) := by
  unfold groupMeans
  rw [List.pairwise_map]
  exact groupKeys_sorted_lt _

/-- The keys of the group means are exactly the group labels. -/
theorem groupMeans_map_fst (key : Record → String) (ds : List Record) :
    (groupMeans key ds).map Prod.fst = groupKeys (ds.map key) := by
  unfold groupMeans
  rw [List.map_map]
  have hid : (Prod.fst ∘ fun k => (k, seriesMean ((ds.filter
      (fun r => decide (key r = k))).map (fun r => r.pollutant_avg)))) =
      id := rfl
  rw [hid, List.map_id]

/-! ## Claim theorems: state averages and cleanest cities -/

/-- Concrete check of the stable descending sort: two states with the same
mean reading 10 come out in ascending state order, `StateA` before `StateB`,
matching a hand trace of pandas `nargsort` at this input. -/
theorem state_avg_concrete_ties_ascending :
    state_avg (load_data [rowA, rowB]) =
      [("StateA", some 10), ("StateB", some 10)] := by
  have hle : (decide (("StateA" : String) ≤ "StateB")) = true := by
    rw [decide_eq_true_eq, String.le_iff_toList_le]
    decide
  have h1 : groupMeans (fun r => r.state) (load_data [rowA, rowB]) =
      [("StateA", some 10), ("StateB", some 10)] := by
    unfold groupMeans groupKeys
    rw [show (load_data [rowA, rowB]).map (fun r => r.state) =
      ["StateA", "StateB"] from rfl]
    rw [show (["StateA", "StateB"] : List String).dedup =
      ["StateA", "StateB"] by decide]
    rw [mergeSort_pair_of_le hle]
    simp only [List.map_cons, List.map_nil]
    rw [show ((load_data [rowA, rowB]).filter
      (fun r => decide (r.state = "StateA"))) = [toRecord rowA] from rfl]
    rw [show ((load_data [rowA, rowB]).filter
      (fun r => decide (r.state = "StateB"))) = [toRecord rowB] from rfl]
    norm_num [seriesMean, toRecord, rowA, rowB]
    refine ⟨by simp, ?_⟩
    rw [show List.filterMap id [some (10 : ℚ)] = [10] from rfl]
    norm_num [List.sum_cons, List.sum_nil]
  unfold state_avg sortValuesDesc
  rw [h1]
  rw [show ([(("StateA" : String), (some 10 : Option ℚ)), ("StateB", some 10)]).filter
    (fun p => p.2.isSome) = [("StateA", some 10), ("StateB", some 10)] from rfl]
  rw [show ([(("StateA" : String), (some 10 : Option ℚ)), ("StateB", some 10)]).filter
    (fun p => !p.2.isSome) = [] from rfl]
  rw [show ([(("StateA" : String), (some 10 : Option ℚ)), ("StateB", some 10)]).reverse =
    [("StateB", some 10), ("StateA", some 10)] from rfl]
  rw [mergeSort_pair_of_le (show optLE ("StateB", some 10) ("StateA", some 10) = true
    by decide)]
  rfl

/-- C4: `state_avg` lists one entry per state (no duplicates), ordered
nonincreasing by mean with all-missing states last, and two states with
equal means appear in ascending state-name order: pandas' descending sort is
stable — `nargsort` reverses the non-missing block before the stable argsort
and reverses the indexer again after — so ties keep the ascending `groupby`
key order. -/
theorem C4_state_averages_sorted (ds : List Record) :
    ((state_avg ds).map Prod.fst).Nodup ∧
    (state_avg ds).Pairwise meanDescAscTies := by
  constructor
  · have hperm : List.Perm ((state_avg ds).map Prod.fst)
        ((groupMeans (fun r => r.state) ds).map Prod.fst) :=
      (sortValuesDesc_perm _).map _
    refine hperm.nodup_iff.mpr ?_
    rw [groupMeans_map_fst]
    exact groupKeys_nodup _
  · exact sortValuesDesc_pairwise (groupMeans_pairwise_lt _ _)

/-- C5: `cleanest_cities` returns at most `n` entries, in nondecreasing
order of mean (missing means, when they survive truncation, come after all
present ones), and `n = 0` yields the empty list. -/
theorem C5_cleanest_cities_truncated (ds : List Record) (n : Nat) :
    (cleanest_cities ds n).length ≤ n ∧
    (cleanest_cities ds n).Pairwise meanAsc ∧
    cleanest_cities ds 0 = [] := by
  refine ⟨?_, ?_, rfl⟩
  · unfold cleanest_cities
    exact List.length_take_le _ _
  · unfold cleanest_cities
    have hpw := sortValuesAsc_pairwise (groupMeans_pairwise_lt (fun r => r.city) ds)
    have hw : (sortValuesAsc (groupMeans (fun r => r.city) ds)).Pairwise meanAsc := by
      refine hpw.imp ?_
      intro p q hstrong b hqb
      rcases hstrong b hqb with ⟨a, hpa, hcase⟩
      refine ⟨a, hpa, ?_⟩
      rcases hcase with hlt | ⟨heq, -⟩
      · exact le_of_lt hlt
      · exact le_of_eq heq
    exact hw.sublist (List.take_sublist _ _)
